import Mathlib

set_option maxRecDepth 65536

/-!
Verification of the LinkedIn content-generation pipeline (agents package).

The definitions below are a shallow embedding of the Python sources:
`agents/link_analysis_agent.py`, `agents/research_agent.py`,
`agents/feedback_agent.py`, `agents/post_composition_agent.py`.
External effects (LLM calls, web extraction, the random number generator)
are modelled as explicit inputs; `json.loads` is modelled by an executable
JSON parser; Python dictionaries are modelled as insertion-ordered
association lists.
-/

/-! ## Python-style string helpers -/

/-- Python whitespace characters recognised by `str.strip()` (ASCII subset). -/
def isPyWs (c : Char) : Bool :=
  c = ' ' ∨ c = '\t' ∨ c = '\n' ∨ c = '\r' ∨ c = Char.ofNat 11 ∨ c = Char.ofNat 12

/-- Drop characters from both ends of a string while they satisfy `p`
(models Python `str.strip` with a character class). -/
def pyStripWhile (p : Char → Bool) (s : String) : String :=
  String.mk (((s.data.dropWhile p).reverse.dropWhile p).reverse)

/-- Python `str.strip()` (whitespace on both ends). -/
def pyStrip (s : String) : String := pyStripWhile isPyWs s

/-- Does `hay` start with `needle`? -/
def listStartsWith : List Char → List Char → Bool
  | [], _ => true
  | _ :: _, [] => false
  | a :: as, b :: bs => a == b && listStartsWith as bs

/-- Does `needle` occur contiguously inside `hay`? -/
def listHasInfix (needle : List Char) : List Char → Bool
  | [] => needle.isEmpty
  | b :: bs => listStartsWith needle (b :: bs) || listHasInfix needle bs

/-- Substring containment, Python `sub in s`. -/
def strContains (s sub : String) : Bool := listHasInfix sub.data s.data

/-- Python `s.startswith(p)`. -/
def strStartsWith (s p : String) : Bool := listStartsWith p.data s.data

/-- Python `str.lower()` (ASCII subset). -/
def pyLower (s : String) : String := String.mk (s.data.map Char.toLower)

/-- Split a character list at every occurrence of `c` (Python
`str.split` with a one-character separator; empty segments are kept). -/
def splitOnChar (c : Char) : List Char → List (List Char)
  | [] => [[]]
  | x :: xs =>
    match splitOnChar c xs with
    | [] => [[x]]
    | g :: gs => if x = c then [] :: g :: gs else (x :: g) :: gs

/-- Python `s.split('\n')`. -/
def splitLines (s : String) : List String := (splitOnChar '\n' s.data).map String.mk

/-- Replace every occurrence of `needle` by `repl`, left to right
(worker for Python `str.replace`; the fuel exceeds the input length). -/
def replaceSubF : ℕ → List Char → List Char → List Char → List Char
  | 0, _, _, cs => cs
  | fuel + 1, needle, repl, cs =>
    match cs with
    | [] => []
    | x :: xs =>
      if needle ≠ [] ∧ listStartsWith needle (x :: xs) then
        repl ++ replaceSubF fuel needle repl ((x :: xs).drop needle.length)
      else x :: replaceSubF fuel needle repl xs

/-- Python `s.replace(sub, repl)` (for a nonempty `sub`). -/
def strReplace (s sub repl : String) : String :=
  String.mk (replaceSubF (s.length + 1) sub.data repl.data s.data)

/-- The opening-brace character, kept out of string literals. -/
def lbrace : Char := Char.ofNat 123

/-- The closing-brace character, kept out of string literals. -/
def rbrace : Char := Char.ofNat 125

/-! ## JSON values

Models the result of Python `json.loads`.  `const` covers the extended
literals `NaN`, `Infinity` and `-Infinity` that CPython's scanner accepts. -/

inductive Json where
  | null : Json
  | bool (b : Bool) : Json
  | num (q : ℚ) : Json
  | str (s : String) : Json
  | arr (elems : List Json) : Json
  | obj (fields : List (String × Json)) : Json
  | const (name : String) : Json
deriving Repr

mutual

/-- Structural equality test on JSON values (Python `==` on parsed values). -/
def jsonBeq : Json → Json → Bool
  | .null, .null => true
  | .bool a, .bool b => a == b
  | .num a, .num b => a == b
  | .str a, .str b => a == b
  | .arr a, .arr b => jsonBeqList a b
  | .obj a, .obj b => jsonBeqFields a b
  | .const a, .const b => a == b
  | _, _ => false

/-- Elementwise equality of JSON arrays. -/
def jsonBeqList : List Json → List Json → Bool
  | [], [] => true
  | x :: xs, y :: ys => jsonBeq x y && jsonBeqList xs ys
  | _, _ => false

/-- Pairwise equality of JSON object field lists. -/
def jsonBeqFields : List (String × Json) → List (String × Json) → Bool
  | [], [] => true
  | (k1, v1) :: xs, (k2, v2) :: ys => k1 == k2 && jsonBeq v1 v2 && jsonBeqFields xs ys
  | _, _ => false

end

/-! ## Python dictionaries -/

/-- A Python dict: insertion-ordered association list with unique keys. -/
abbrev PyDict := List (String × Json)

/-- Dictionary lookup, `d[k]` / `d.get(k)`. -/
def pyGet : PyDict → String → Option Json
  | [], _ => none
  | (k2, v) :: rest, k => if k = k2 then some v else pyGet rest k

/-- Dictionary assignment `d[k] = v`: overwrites in place if the key exists,
otherwise appends (Python dicts keep the position of the first insertion). -/
def pyInsert (d : PyDict) (k : String) (v : Json) : PyDict :=
  if (pyGet d k).isSome then
    d.map (fun kv => if kv.1 = k then (kv.1, v) else kv)
  else d ++ [(k, v)]

/-- Python `dict.update`: assign every pair of `upd` in order. -/
def pyUpdate (d : PyDict) (upd : List (String × Json)) : PyDict :=
  upd.foldl (fun acc kv => pyInsert acc kv.1 kv.2) d

/-- Python truthiness of a JSON value (`if value:`). -/
def jsonTruthy : Json → Bool
  | .null => false
  | .bool b => b
  | .num q => q ≠ 0
  | .str s => s ≠ ""
  | .arr xs => ¬ xs.isEmpty
  | .obj kvs => ¬ kvs.isEmpty
  | .const _ => true

/-- Elements produced by iterating a Python value (`list.extend(v)`):
arrays yield their elements, strings their characters, dicts their keys.
Non-iterable values contribute nothing; Python would raise `TypeError` here. -/
def pyIterElems : Json → List Json
  | .arr xs => xs
  | .str s => s.data.map (fun c => Json.str (String.mk [c]))
  | .obj kvs => kvs.map (fun kv => Json.str kv.1)
  | _ => []

/-! ## JSON parsing

An executable model of Python `json.loads` (default settings: strict
strings, the extended constants `NaN`/`Infinity`/`-Infinity`).  The
recursive descent uses a fuel parameter; `jsonLoadsE` supplies fuel
larger than the input length, which is always sufficient because every
recursive call consumes at least one character. -/

/-- Skip JSON whitespace (space, tab, newline, carriage return). -/
def skipWs : List Char → List Char
  | [] => []
  | c :: cs => if c = ' ' ∨ c = '\t' ∨ c = '\n' ∨ c = '\r' then skipWs cs else c :: cs

/-- Numeric value of a digit string. -/
def digitsToNat (ds : List Char) : ℕ := ds.foldl (fun a c => 10 * a + (c.toNat - 48)) 0

/-- Value of one hexadecimal digit. -/
def hexDigitVal (c : Char) : Option ℕ :=
  if c.isDigit then some (c.toNat - 48)
  else if 'a' ≤ c ∧ c ≤ 'f' then some (c.toNat - 87)
  else if 'A' ≤ c ∧ c ≤ 'F' then some (c.toNat - 55)
  else none

/-- Parse the body of a JSON string after the opening quote, handling the
escape sequences of the JSON grammar; literal control characters are
rejected (strict mode). -/
def parseStringBody : ℕ → List Char → List Char → Option (String × List Char)
  | 0, _, _ => none
  | _ + 1, [], _ => none
  | fuel + 1, c :: rest, acc =>
    if c = '"' then some (String.mk acc.reverse, rest)
    else if c = '\\' then
      match rest with
      | [] => none
      | e :: rest2 =>
        if e = '"' then parseStringBody fuel rest2 ('"' :: acc)
        else if e = '\\' then parseStringBody fuel rest2 ('\\' :: acc)
        else if e = '/' then parseStringBody fuel rest2 ('/' :: acc)
        else if e = 'b' then parseStringBody fuel rest2 (Char.ofNat 8 :: acc)
        else if e = 'f' then parseStringBody fuel rest2 (Char.ofNat 12 :: acc)
        else if e = 'n' then parseStringBody fuel rest2 ('\n' :: acc)
        else if e = 'r' then parseStringBody fuel rest2 ('\r' :: acc)
        else if e = 't' then parseStringBody fuel rest2 ('\t' :: acc)
        else if e = 'u' then
          match rest2 with
          | h1 :: h2 :: h3 :: h4 :: rest3 =>
            match hexDigitVal h1, hexDigitVal h2, hexDigitVal h3, hexDigitVal h4 with
            | some a, some b, some c2, some d =>
                parseStringBody fuel rest3
                  (Char.ofNat (((a * 16 + b) * 16 + c2) * 16 + d) :: acc)
            | _, _, _, _ => none
          | _ => none
        else none
    else if c.toNat < 32 then none
    else parseStringBody fuel rest (c :: acc)

/-- Parse the integer part of a JSON number (`0` or a nonzero digit run;
leading zeros are rejected). -/
def parseIntPart (cs : List Char) : Option (ℚ × List Char) :=
  match cs with
  | [] => none
  | c :: _ =>
    if c.isDigit then
      let ds := cs.takeWhile Char.isDigit
      if 1 < ds.length ∧ c = '0' then none
      else some ((digitsToNat ds : ℚ), cs.dropWhile Char.isDigit)
    else none

/-- Parse an optional fractional part (a dot must be followed by digits). -/
def parseFracPart (cs : List Char) : Option (ℚ × List Char) :=
  match cs with
  | '.' :: rest =>
    let fs := rest.takeWhile Char.isDigit
    if fs.isEmpty then none
    else some ((digitsToNat fs : ℚ) / (10 : ℚ) ^ fs.length, rest.dropWhile Char.isDigit)
  | _ => some (0, cs)

/-- Parse an optional exponent part, returning the scale factor. -/
def parseExpPart (cs : List Char) : Option (ℚ × List Char) :=
  match cs with
  | [] => some (1, [])
  | e :: rest =>
    if e = 'e' ∨ e = 'E' then
      let (negE, rest2) :=
        match rest with
        | '+' :: r => (false, r)
        | '-' :: r => (true, r)
        | _ => (false, rest)
      let ds := rest2.takeWhile Char.isDigit
      if ds.isEmpty then none
      else
        some (if negE then 1 / (10 : ℚ) ^ digitsToNat ds else (10 : ℚ) ^ digitsToNat ds,
              rest2.dropWhile Char.isDigit)
    else some (1, cs)

/-- Parse a JSON number. -/
def parseNumber (cs0 : List Char) : Option (ℚ × List Char) :=
  let (neg, cs1) :=
    match cs0 with
    | '-' :: rest => (true, rest)
    | _ => (false, cs0)
  match parseIntPart cs1 with
  | none => none
  | some (ip, cs2) =>
    match parseFracPart cs2 with
    | none => none
    | some (fq, cs3) =>
      match parseExpPart cs3 with
      | none => none
      | some (scale, cs4) =>
        let v := (ip + fq) * scale
        some (if neg then -v else v, cs4)

mutual

/-- Parse one JSON value from the input. -/
def parseValue : ℕ → List Char → Option (Json × List Char)
  | 0, _ => none
  | fuel + 1, cs =>
    match skipWs cs with
    | [] => none
    | c :: rest =>
      if c = lbrace then parseObjBody fuel rest
      else if c = '[' then parseArrBody fuel rest
      else if c = '"' then
        match parseStringBody (rest.length + 1) rest [] with
        | some (s, rem) => some (Json.str s, rem)
        | none => none
      else if listStartsWith "true".data (c :: rest) then
        some (Json.bool true, (c :: rest).drop 4)
      else if listStartsWith "false".data (c :: rest) then
        some (Json.bool false, (c :: rest).drop 5)
      else if listStartsWith "null".data (c :: rest) then
        some (Json.null, (c :: rest).drop 4)
      else if listStartsWith "NaN".data (c :: rest) then
        some (Json.const "NaN", (c :: rest).drop 3)
      else if listStartsWith "Infinity".data (c :: rest) then
        some (Json.const "Infinity", (c :: rest).drop 8)
      else if listStartsWith "-Infinity".data (c :: rest) then
        some (Json.const "-Infinity", (c :: rest).drop 9)
      else
        match parseNumber (c :: rest) with
        | some (q, rem) => some (Json.num q, rem)
        | none => none

/-- Parse an object body after the opening brace. -/
def parseObjBody : ℕ → List Char → Option (Json × List Char)
  | 0, _ => none
  | fuel + 1, cs =>
    match skipWs cs with
    | c :: rest => if c = rbrace then some (Json.obj [], rest) else parseObjItems fuel [] cs
    | [] => none

/-- Parse the `key : value` pairs of a nonempty object; duplicate keys
overwrite in place, like Python dict construction. -/
def parseObjItems : ℕ → PyDict → List Char → Option (Json × List Char)
  | 0, _, _ => none
  | fuel + 1, acc, cs =>
    match skipWs cs with
    | '"' :: rest =>
      match parseStringBody (rest.length + 1) rest [] with
      | none => none
      | some (key, cs2) =>
        match skipWs cs2 with
        | ':' :: cs3 =>
          match parseValue fuel cs3 with
          | none => none
          | some (v, cs4) =>
            let acc2 := pyInsert acc key v
            match skipWs cs4 with
            | ',' :: cs5 => parseObjItems fuel acc2 cs5
            | c :: cs5 => if c = rbrace then some (Json.obj acc2, cs5) else none
            | [] => none
        | _ => none
    | _ => none

/-- Parse an array body after the opening bracket. -/
def parseArrBody : ℕ → List Char → Option (Json × List Char)
  | 0, _ => none
  | fuel + 1, cs =>
    match skipWs cs with
    | ']' :: rest => some (Json.arr [], rest)
    | _ => parseArrItems fuel [] cs

/-- Parse the comma-separated elements of a nonempty array. -/
def parseArrItems : ℕ → List Json → List Char → Option (Json × List Char)
  | 0, _, _ => none
  | fuel + 1, acc, cs =>
    match parseValue fuel cs with
    | none => none
    | some (v, cs2) =>
      match skipWs cs2 with
      | ',' :: cs3 => parseArrItems fuel (acc ++ [v]) cs3
      | ']' :: cs3 => some (Json.arr (acc ++ [v]), cs3)
      | _ => none

end

/-- Python `json.loads`: parse a complete JSON document, requiring that
only whitespace remains.  Errors carry a model-level message (the code
only ever surfaces them through `str(e)` in fallback records). -/
def jsonLoadsE (s : String) : Except String Json :=
  match parseValue (2 * s.length + 8) s.data with
  | none => .error ("Expecting value: " ++ s.take 30)
  | some (v, rest) =>
    if (skipWs rest).isEmpty then .ok v
    else .error ("Extra data: " ++ s.take 30)

/-- Parse outcome as an option (used where the code only branches on
success versus `json.JSONDecodeError`). -/
def jsonLoads (s : String) : Option Json := (jsonLoadsE s).toOption

/-! ## Greedy brace and bracket spans

Models `re.search` with patterns like a brace, a greedy dot-star under
DOTALL, and a closing brace: the match starts at the first opening
delimiter and stretches to the last closing delimiter after it. -/

/-- Suffix of the list starting at the first occurrence of `c`. -/
def splitAtFirst (c : Char) : List Char → Option (List Char)
  | [] => none
  | x :: xs => if x = c then some (x :: xs) else splitAtFirst c xs

/-- Greedy span from the first `l` to the last `r` after it. -/
def regexSpan (l r : Char) (s : String) : Option String :=
  match splitAtFirst l s.data with
  | none => none
  | some [] => none
  | some (x :: rest) =>
    match splitAtFirst r rest.reverse with
    | none => none
    | some revSeg => some (String.mk (x :: revSeg.reverse))

/-- The greedy brace-delimited span of a response text. -/
def braceSpan (s : String) : Option String := regexSpan lbrace rbrace s

/-- The greedy bracket-delimited span of a response text. -/
def bracketSpan (s : String) : Option String := regexSpan '[' ']' s

/-! ## Feedback agent (`agents/feedback_agent.py`)

The LLM call is modelled by an `Except String String` input: `.ok text` is
the extracted response content, `.error e` a raised exception with message
`e`.  Each analysis method shares the same parse-with-fallback shape. -/

/-- `FeedbackAgent._create_fallback_analysis`. -/
def createFallbackAnalysis (analysisType content : String) : PyDict :=
  [("analysis_type", .str analysisType),
   ("status", .str "partial"),
   ("raw_content", .str (if content.length > 500 then content.take 500 ++ "..." else content)),
   ("note", .str "Analysis completed but structured data extraction failed")]

/-- The body of the `try` block shared by the four analysis methods: read
the response, take the greedy brace span and parse it; a missing span
falls back immediately, a parse error is thrown (to the handler below). -/
def analyzeTry (analysisType : String) (agentResult : Except String String) :
    Except String Json := do
  let content ← agentResult
  match braceSpan content with
  | some span =>
    match jsonLoadsE span with
    | .ok v => pure v
    | .error e => throw e
  | none => pure (.obj (createFallbackAnalysis analysisType content))

/-- An analysis method of `FeedbackAgent`: the `try` body wrapped in the
`except Exception` handler, which converts any exception into a fallback
analysis carrying the exception message. -/
def analyzeWithFallback (analysisType : String) (agentResult : Except String String) :
    Except String Json :=
  match analyzeTry analysisType agentResult with
  | .ok v => .ok v
  | .error e => .ok (.obj (createFallbackAnalysis analysisType e))

/-- `FeedbackAgent.analyze_instruction_alignment` (parse part). -/
def analyze_instruction_alignment : Except String String → Except String Json :=
  analyzeWithFallback "instruction_alignment"

/-- `FeedbackAgent.analyze_style_compliance` (parse part). -/
def analyze_style_compliance : Except String String → Except String Json :=
  analyzeWithFallback "style_compliance"

/-- `FeedbackAgent.analyze_readability` (parse part). -/
def analyze_readability : Except String String → Except String Json :=
  analyzeWithFallback "readability"

/-- `FeedbackAgent.analyze_structure` (parse part). -/
def analyze_structure : Except String String → Except String Json :=
  analyzeWithFallback "structure"

/-- `FeedbackAgent._score_to_grade`. -/
def score_to_grade (score : ℚ) : String :=
  if score ≥ 9 then "A"
  else if score ≥ 8 then "B+"
  else if score ≥ 7 then "B"
  else if score ≥ 6 then "C+"
  else if score ≥ 5 then "C"
  else "D"

/-- Rank of a letter grade, higher is better (used to state monotonicity). -/
def gradeRank : String → ℕ
  | "A" => 5
  | "B+" => 4
  | "B" => 3
  | "C+" => 2
  | "C" => 1
  | _ => 0

/-- Round half to even (the rounding of Python `round` on a numeric tie). -/
def roundHalfEven (q : ℚ) : ℤ :=
  if q - ⌊q⌋ < 1 / 2 then ⌊q⌋
  else if 1 / 2 < q - ⌊q⌋ then ⌊q⌋ + 1
  else if Even ⌊q⌋ then ⌊q⌋ else ⌊q⌋ + 1

/-- Python `round(x, 1)` on an exactly-represented value. -/
def pyRound1 (q : ℚ) : ℚ := (roundHalfEven (10 * q) : ℚ) / 10

/-- `analysis.get(key, 5)`: the sub-score a dictionary contributes to the
overall assessment, defaulting to the integer 5 when the key is absent. -/
def getScore (d : PyDict) (k : String) : Json := (pyGet d k).getD (.num 5)

/-- The overall-assessment computation of
`FeedbackAgent.generate_comprehensive_feedback` (lines 330-345): mean of
the four sub-scores, rounded score, and grade of the unrounded mean.
Returns `none` when a sub-score is not numeric; Python would raise
`TypeError` in `sum` there. -/
def overallAssessment (inst style read struct : PyDict) : Option (ℚ × String) :=
  match getScore inst "alignment_score", getScore style "style_score",
        getScore read "readability_score", getScore struct "structure_score" with
  | .num a, .num b, .num c, .num d =>
    let overall := (a + b + c + d) / 4
    some (pyRound1 overall, score_to_grade overall)
  | _, _, _, _ => none

/-- The recommendation keys scanned by `_compile_recommendations`. -/
def recommendationKeys : List String :=
  ["specific_recommendations", "style_recommendations", "accessibility_improvements",
   "structural_recommendations", "areas_for_improvement"]

/-- Up to two items pulled from one named list field of one analysis
(fields that are absent or not lists contribute nothing). -/
def pullField (d : PyDict) (k : String) : List Json :=
  match pyGet d k with
  | some (.arr xs) => xs.take 2
  | _ => []

/-- All pulled recommendation items of the four analyses, in scan order. -/
def pulledRecommendations (a1 a2 a3 a4 : PyDict) : List Json :=
  ([a1, a2, a3, a4].map fun a => (recommendationKeys.map (pullField a)).flatten).flatten

/-- The dedup loop of `_compile_recommendations`: keep each string the
first time it is seen, drop non-strings. -/
def dedupStrRecs (seen : List String) : List Json → List String
  | [] => []
  | r :: rest =>
    match r with
    | .str s => if s ∈ seen then dedupStrRecs seen rest else s :: dedupStrRecs (s :: seen) rest
    | _ => dedupStrRecs seen rest

/-- `FeedbackAgent._compile_recommendations`. -/
def compile_recommendations (a1 a2 a3 a4 : PyDict) : List String :=
  (dedupStrRecs [] (pulledRecommendations a1 a2 a3 a4)).take 8

/-! ## Post composition agent (`agents/post_composition_agent.py`) -/

/-- The number of example posts `load_example_posts` tries to sample,
given the requested `count` (the call site always uses the default 4) and
the number `n` of suitable posts found.  `.error` models the `ValueError`
that `random.sample(posts, k)` raises when `k` exceeds the population. -/
def load_example_posts_count (count n : ℕ) : Except String ℕ :=
  if n = 0 then .ok 0
  else
    let selected := min count n
    let selected := max 3 (min selected 4)
    if n < selected then .error "Sample larger than population or is negative"
    else .ok selected

/-! ## Link analysis agent (`agents/link_analysis_agent.py`) -/

/-- Strip a trailing run of `.,;!?` (the `re.sub` over a trailing
punctuation class in `detect_links`). -/
def stripTrailingPunct (s : String) : String :=
  String.mk ((s.data.reverse.dropWhile
    (fun c => c = '.' ∨ c = ',' ∨ c = ';' ∨ c = '!' ∨ c = '?')).reverse)

/-- Does the candidate contain a dot (`'.' in url`)? -/
def hasDot (s : String) : Bool := s.data.contains '.'

/-- The per-candidate cleaning step of `detect_links`: prepend `https://`
to protocol-less matches, then strip trailing punctuation. -/
def normalizeUrl (url : String) : String :=
  let url :=
    if strStartsWith url "http://" ∨ strStartsWith url "https://" then url
    else if strStartsWith url "www." then "https://" ++ url
    else if hasDot url then "https://" ++ url
    else url
  stripTrailingPunct url

/-- The cleaning-and-validation loop of `detect_links` over the raw regex
matches: normalize each, keep those with a dot and more than 10
characters. -/
def cleanUrls (rawMatches : List String) : List String :=
  (rawMatches.map normalizeUrl).filter (fun u => hasDot u ∧ 10 < u.length)

/-- First-seen-order deduplication of a string list
(`list(dict.fromkeys(...))`). -/
def uniqueKeepFirst (l : List String) : List String := go [] l
where
  /-- Recursive worker carrying the set of strings already emitted. -/
  go (seen : List String) : List String → List String
    | [] => []
    | x :: xs => if x ∈ seen then go seen xs else x :: go (x :: seen) xs

/-- `detect_links` from the raw regex matches onward (the union of the
three URL regex matches is taken as input). -/
def detect_links (rawMatches : List String) : List String :=
  uniqueKeepFirst (cleanUrls rawMatches)

/-- Network location of a URL: `urllib.parse.urlparse(url).netloc` with
every `"www."` occurrence removed, as in `_extract_title_from_url`. -/
def urlNetloc (url : String) : String :=
  match afterSubChars "://".data url.data with
  | none => ""
  | some rest =>
    strReplace (String.mk (rest.takeWhile
      (fun c => ¬ (c = '/' ∨ c = '?' ∨ c = Char.ofNat 35)))) "www." ""
where
  /-- Remainder of `hay` after the first occurrence of `needle`. -/
  afterSubChars (needle : List Char) : List Char → Option (List Char)
    | [] => if needle.isEmpty then some [] else none
    | b :: bs =>
      if listStartsWith needle (b :: bs) then some ((b :: bs).drop needle.length)
      else afterSubChars needle bs

/-- `LinkAnalysisAgent._extract_title_from_url`. -/
def extract_title_from_url (url : String) : String :=
  if strContains url "twitter.com" ∨ strContains url "x.com" then "Twitter/X Post"
  else if strContains url "nytimes.com" then "New York Times Article"
  else if strContains url "linkedin.com" then "LinkedIn Content"
  else "Content from " ++ urlNetloc url

/-- `LinkAnalysisAgent._infer_theme_from_url`. -/
def infer_theme_from_url (url : String) : String :=
  let l := pyLower url
  if ["ai", "artificial-intelligence", "machine-learning", "chatbot"].any (strContains l) then
    "Artificial Intelligence"
  else if ["tech", "technology", "innovation"].any (strContains l) then "Technology"
  else if ["business", "finance", "economy"].any (strContains l) then "Business"
  else if ["health", "mental-health", "psychology"].any (strContains l) then "Health & Wellness"
  else if strContains l "twitter.com" ∨ strContains l "x.com" then "Social Media Discussion"
  else if strContains l "news" then "News & Current Events"
  else "Web Content"

/-- `LinkAnalysisAgent._create_fallback_analysis`, the record produced
when a URL cannot be fetched or analyzed. -/
def create_fallback_analysis (url error : String) : PyDict :=
  let title := extract_title_from_url url
  let theme := infer_theme_from_url url
  let keyPoints :=
    if strContains url "twitter.com" ∨ strContains url "x.com" then
      ["Social media post from Twitter/X platform",
       "May contain opinions or breaking news",
       "Could include viral content or trending topics"]
    else if strContains url "nytimes.com" then
      ["News article from The New York Times",
       "Professional journalism and reporting",
       "Likely contains in-depth analysis of current events"]
    else if strContains url "linkedin.com" then
      ["Professional social media content",
       "Business or career-related information",
       "Professional networking context"]
    else ["Web content from " ++ url]
  [("url", .str url), ("status", .str "fallback"), ("error", .str error),
   ("title", .str title), ("main_theme", .str theme),
   ("key_points", .arr (keyPoints.map Json.str)),
   ("relevant_quotes", .arr []), ("supporting_data", .arr []),
   ("linkedin_relevance", .str ("Reference material from " ++ title)),
   ("summary", .str ("Content from " ++ title ++
     ". Based on URL structure, this appears to be " ++ pyLower theme ++
     " content. The specific details could not be retrieved due to access restrictions."))]

/-- The bullet and quote scan of `_extract_analysis_from_text`. -/
def bulletQuoteScan (lines : List String) : List String × List String :=
  lines.foldl
    (fun (acc : List String × List String) line =>
      let l := pyStrip line
      if strStartsWith l "-" ∨ strStartsWith l "•" ∨ strStartsWith l "*" then
        (acc.1 ++ [pyStrip (l.drop 1)], acc.2)
      else if strContains l "\"" ∧ 20 < l.length then
        (acc.1, acc.2 ++ [pyStripWhile (fun c => c = '"') l])
      else acc)
    ([], [])

/-- `LinkAnalysisAgent._extract_analysis_from_text`: salvage a record from
an unstructured LLM response. -/
def extract_analysis_from_text (content url : String) (extractedContent : Option String) :
    PyDict :=
  let scanned := bulletQuoteScan (splitLines content)
  let keyPoints := scanned.1
  let quotes := scanned.2
  let status := if 200 < content.length then "partial_success" else "failed"
  let extractedTruthy : Bool := match extractedContent with
    | some ec => ec != ""
    | none => false
  [("url", .str url), ("status", .str status),
   ("title", .str (extract_title_from_url url)),
   ("main_theme", .str (infer_theme_from_url url)),
   ("key_points", .arr (if keyPoints.isEmpty then [Json.str (content.take 200 ++ "...")]
     else (keyPoints.take 5).map Json.str)),
   ("relevant_quotes", .arr ((quotes.take 3).map Json.str)),
   ("supporting_data", .arr []),
   ("linkedin_relevance", .str "Supporting content for LinkedIn post"),
   ("summary", .str (if 300 < content.length then content.take 300 ++ "..." else content)),
   ("content_length", .num (match extractedContent with
     | some ec => if ec ≠ "" then (ec.length : ℚ) else (content.length : ℚ)
     | none => (content.length : ℚ))),
   ("extraction_method", .str (if extractedTruthy then "tavily" else "fallback"))]

/-- Outcome of the external work inside `fetch_and_analyze_content` for
one URL: the extraction tool's behaviour and, when content was obtained,
the LLM's response (`none` models a falsy response object). -/
inductive FetchOutcome where
  | tavilyUnavailable : FetchOutcome
  | extractRaised (msg : String) : FetchOutcome
  | noResults : FetchOutcome
  | gotContent (title raw : String) (llm : Option String) : FetchOutcome
  | outerExc (msg : String) : FetchOutcome

/-- `LinkAnalysisAgent.fetch_and_analyze_content` as a function of the
URL and the external outcome. -/
def fetch_and_analyze_content (url : String) (o : FetchOutcome) : PyDict :=
  match o with
  | .outerExc e => create_fallback_analysis url e
  | .tavilyUnavailable => create_fallback_analysis url "Tavily extraction not available"
  | .extractRaised e => create_fallback_analysis url ("Tavily extraction failed: " ++ e)
  | .noResults => create_fallback_analysis url "No content extracted"
  | .gotContent _title raw llm =>
    if raw = "" ∨ raw.length < 50 then create_fallback_analysis url "Minimal content extracted"
    else
      let content :=
        if 8000 < raw.length then raw.take 8000 ++ "\n\n[Content truncated to avoid token limits...]"
        else raw
      match llm with
      | none => create_fallback_analysis url "No analysis response"
      | some text =>
        match braceSpan text with
        | some span =>
          match jsonLoadsE span with
          | .ok (.obj kvs) =>
            pyUpdate kvs
              [("url", .str url), ("status", .str "success"),
               ("content_length", .num (content.length : ℚ)),
               ("extraction_method", .str "tavily")]
          | .ok _ =>
            -- a non-object parse has no `.update`; the AttributeError is
            -- caught by the outer handler, which builds a fallback record
            create_fallback_analysis url "object has no attribute update"
          | .error _ => extract_analysis_from_text text url (some content)
        | none => extract_analysis_from_text text url (some content)

/-- Status string of a record (`summary['status']`; every record built by
`fetch_and_analyze_content` carries one). -/
def statusStr (rec : PyDict) : String :=
  match pyGet rec "status" with
  | some (.str s) => s
  | _ => ""

/-- The statuses whose records feed the aggregation step. -/
def usefulStatuses : List String := ["success", "partial_success", "fallback"]

/-- Every status value a per-URL record can carry. -/
def statusUniverse : List String := ["success", "partial_success", "fallback", "failed"]

/-- Theme contributed by one record (`'main_theme' in summary and
summary['main_theme']`). -/
def themeContrib (rec : PyDict) : List Json :=
  match pyGet rec "main_theme" with
  | some v => if jsonTruthy v then [v] else []
  | none => []

/-- List-field contribution of one record (`'key' in summary and
summary[key]`, then `extend`). -/
def listContrib (key : String) (rec : PyDict) : List Json :=
  match pyGet rec key with
  | some v => if jsonTruthy v then pyIterElems v else []
  | none => []

/-- One step of the aggregation loop of `analyze_all_links`. -/
def linkAggStep (acc : List Json × List Json × List Json) (rec : PyDict) :
    List Json × List Json × List Json :=
  if usefulStatuses.contains (statusStr rec) then
    (acc.1 ++ themeContrib rec, acc.2.1 ++ listContrib "key_points" rec,
     acc.2.2 ++ listContrib "relevant_quotes" rec)
  else acc

/-- The aggregation loop of `analyze_all_links` (themes, key points,
quotes), folding over the content summaries in order. -/
def linkAggLoop (summaries : List PyDict) : List Json × List Json × List Json :=
  summaries.foldl linkAggStep ([], [], [])

/-- First-seen-order deduplication of JSON values under `jsonBeq`.  Models
`list(set(all_themes))`; a Python set promises only uniqueness, not this
order, so no order fact about the result is used in the theorems below. -/
def uniqueKeepFirstJson (l : List Json) : List Json := go [] l
where
  /-- Recursive worker carrying the values already emitted. -/
  go (seen : List Json) : List Json → List Json
    | [] => []
    | x :: xs =>
      if seen.any (fun y => jsonBeq y x) then go seen xs
      else x :: go (x :: seen) xs

/-- One step of the status-counting loop of `analyze_all_links`. -/
def countStep (acc : ℕ × ℕ × ℕ) (rec : PyDict) : ℕ × ℕ × ℕ :=
  let st := statusStr rec
  if st = "success" then (acc.1 + 1, acc.2.1, acc.2.2)
  else if st = "partial_success" ∨ st = "fallback" then (acc.1, acc.2.1 + 1, acc.2.2)
  else (acc.1, acc.2.1, acc.2.2 + 1)

/-- The status-counting loop of `analyze_all_links`: how many records are
`success`, how many `partial_success` or `fallback`, and how many other. -/
def countStatuses (summaries : List PyDict) : ℕ × ℕ × ℕ :=
  summaries.foldl countStep (0, 0, 0)

/-- The final dictionary of `analyze_all_links` as a structure (its keys
are fixed). -/
structure LinkAnalysisResult where
  urls_found : List String
  total_urls : ℕ
  successful_analyses : ℕ
  partial_analyses : ℕ
  failed_analyses : ℕ
  content_summaries : List PyDict
  aggregated_themes : List Json
  all_key_points : List Json
  all_quotes : List Json
  summary : String

/-- `LinkAnalysisAgent.analyze_all_links`, from the detected URL list
onward; `env` supplies the external outcome for each URL. -/
def analyze_all_links (urls : List String) (env : String → FetchOutcome) :
    LinkAnalysisResult :=
  if urls.isEmpty then
    { urls_found := [], total_urls := 0, successful_analyses := 0,
      partial_analyses := 0, failed_analyses := 0, content_summaries := [],
      aggregated_themes := [], all_key_points := [], all_quotes := [],
      summary := "No links found in instructions to analyze." }
  else
    let summaries := urls.map (fun u => fetch_and_analyze_content u (env u))
    let counts := countStatuses summaries
    let agg := linkAggLoop summaries
    { urls_found := urls, total_urls := urls.length,
      successful_analyses := counts.1, partial_analyses := counts.2.1,
      failed_analyses := counts.2.2, content_summaries := summaries,
      aggregated_themes := uniqueKeepFirstJson agg.1,
      all_key_points := agg.2.1, all_quotes := agg.2.2,
      summary := "Analyzed " ++ toString urls.length ++ " URLs with " ++
        toString counts.1 ++ " successful and " ++ toString counts.2.1 ++
        " partial analyses. Found " ++
        toString (uniqueKeepFirstJson agg.1).length ++ " unique themes and " ++
        toString agg.2.1.length ++ " key points." }

/-! ## Research agent (`agents/research_agent.py`) -/

/-- The three topics of the exception handler of `extract_topics`. -/
def extractTopicsErrList : List Json :=
  [.str "Industry trends", .str "Technology developments", .str "Professional insights"]

/-- The hardcoded default used when the bullet fallback finds nothing. -/
def extractTopicsDefaultList : List Json :=
  [.str "AI technology", .str "Industry trends", .str "Professional development"]

/-- Does a response line carry a bullet marker
(`any(char in line for char in ['-', '•', '1.', '2.', '3.'])`)? -/
def hasBulletMarker (line : String) : Bool :=
  ["-", "•", "1.", "2.", "3."].any (strContains line)

/-- Characters removed from the front of a bullet line
(`re.sub(r'^[-•\d.\s]+', '', line)`). -/
def isBulletJunk (c : Char) : Bool :=
  c = '-' ∨ c = '•' ∨ c.isDigit ∨ c = '.' ∨ isPyWs c

/-- The bullet fallback loop of `extract_topics`: strip markers from each
marked line, keep the non-trivial results truncated to 100 characters. -/
def bulletTopics (text : String) : List Json :=
  ((splitLines text).filterMap fun line =>
    if hasBulletMarker line then
      let topic := pyStrip (String.mk (line.data.dropWhile isBulletJunk))
      if topic ≠ "" ∧ 3 < topic.length then some (Json.str (topic.take 100)) else none
    else none)

/-- `ResearchAgent.extract_topics` as a function of the LLM call outcome:
parse the greedy bracket span as JSON, fall back to bullet scanning, and
catch every exception with a hardcoded topic list. -/
def extract_topics (agentResult : Except String String) : List Json :=
  match agentResult with
  | .error _ => extractTopicsErrList
  | .ok text =>
    match bracketSpan text with
    | some span =>
      match jsonLoadsE span with
      | .ok (.arr topics) => topics.take 5
      | .ok _ =>
        -- a bracket span can only parse to an array; slicing any other
        -- value raises TypeError, which the handler turns into this list
        extractTopicsErrList
      | .error _ => extractTopicsErrList
    | none =>
      let topics := bulletTopics text
      let topics := if topics.isEmpty then extractTopicsDefaultList else topics
      topics.take 5

/-- The knowledge-based fallback research record of `research_topic`
(no JSON found in the response). -/
def researchFallbackData (topic : String) : PyDict :=
  [("topic", .str topic),
   ("current_trends", .arr [.str ("Current developments in " ++ topic)]),
   ("key_statistics", .arr [.str ("Growing importance of " ++ topic ++ " in industry")]),
   ("industry_implications", .arr [.str (topic ++ " is reshaping business practices")]),
   ("expert_perspectives", .arr [.str ("Experts emphasize the significance of " ++ topic)]),
   ("linkedin_angles", .arr [.str ("Professionals should understand " ++ topic)]),
   ("supporting_arguments", .arr [.str (topic ++ " drives innovation")]),
   ("potential_controversies", .arr [.str ("Debates around " ++ topic ++ " implementation")]),
   ("actionable_insights", .arr [.str ("Stay informed about " ++ topic ++ " developments")])]

/-- The error record of `research_topic`: all lists empty plus an `error`
field carrying the exception message. -/
def researchErrorData (topic e : String) : PyDict :=
  [("topic", .str topic), ("current_trends", .arr []), ("key_statistics", .arr []),
   ("industry_implications", .arr []), ("expert_perspectives", .arr []),
   ("linkedin_angles", .arr []), ("supporting_arguments", .arr []),
   ("potential_controversies", .arr []), ("actionable_insights", .arr []),
   ("error", .str e)]

/-- The `try` body of `research_topic`: read the response, parse the
greedy brace span, or fall back to the knowledge-based record when no
span exists; a parse error is thrown. -/
def researchTopicTry (topic : String) (agentResult : Except String String) :
    Except String Json := do
  let text ← agentResult
  match braceSpan text with
  | some span =>
    match jsonLoadsE span with
    | .ok v => pure v
    | .error e => throw e
  | none => pure (.obj (researchFallbackData topic))

/-- `ResearchAgent.research_topic` (parse part): the `try` body wrapped in
the handler that returns the error record. -/
def research_topic (topic : String) (agentResult : Except String String) :
    Except String Json :=
  match researchTopicTry topic agentResult with
  | .ok v => .ok v
  | .error e => .ok (.obj (researchErrorData topic e))

/-- List contributed by one research record to an aggregate
(`research.get(key, [])`, then `extend`). -/
def researchContrib (key : String) (rec : PyDict) : List Json :=
  match pyGet rec key with
  | some v => pyIterElems v
  | none => []

/-- The aggregated-insight lists of `conduct_comprehensive_research`. -/
structure AggregatedInsights where
  all_trends : List Json
  all_statistics : List Json
  all_implications : List Json
  all_angles : List Json
  all_actionable_insights : List Json

/-- One step of the research aggregation loop. -/
def insightStep (acc : AggregatedInsights) (rec : PyDict) : AggregatedInsights :=
  if (pyGet rec "error").isSome then acc
  else
    { all_trends := acc.all_trends ++ researchContrib "current_trends" rec,
      all_statistics := acc.all_statistics ++ researchContrib "key_statistics" rec,
      all_implications := acc.all_implications ++ researchContrib "industry_implications" rec,
      all_angles := acc.all_angles ++ researchContrib "linkedin_angles" rec,
      all_actionable_insights :=
        acc.all_actionable_insights ++ researchContrib "actionable_insights" rec }

/-- The aggregation loop of `conduct_comprehensive_research` (lines
441-455): records with an `error` key are skipped, the five lists are
extended in order with no deduplication. -/
def aggregateInsights (results : List PyDict) : AggregatedInsights :=
  results.foldl insightStep
    { all_trends := [], all_statistics := [], all_implications := [],
      all_angles := [], all_actionable_insights := [] }

/-! ## Supporting lemmas -/

mutual

theorem jsonBeq_refl (a : Json) : jsonBeq a a = true := by
  match a with
  | .null => rfl
  | .bool b => simp [jsonBeq]
  | .num q => simp [jsonBeq]
  | .str s => simp [jsonBeq]
  | .const s => simp [jsonBeq]
  | .arr xs => rw [jsonBeq]; exact jsonBeqList_refl xs
  | .obj kvs => rw [jsonBeq]; exact jsonBeqFields_refl kvs

theorem jsonBeqList_refl (xs : List Json) : jsonBeqList xs xs = true := by
  match xs with
  | [] => rfl
  | x :: t => rw [jsonBeqList]; rw [jsonBeq_refl x, jsonBeqList_refl t]; rfl

theorem jsonBeqFields_refl (xs : List (String × Json)) : jsonBeqFields xs xs = true := by
  match xs with
  | [] => rfl
  | (k, v) :: t =>
      rw [jsonBeqFields]; rw [jsonBeq_refl v, jsonBeqFields_refl t]; simp

end

theorem roundHalfEven_bounds (q : ℚ) :
    q - 1 / 2 ≤ (roundHalfEven q : ℚ) ∧ (roundHalfEven q : ℚ) ≤ q + 1 / 2 := by
  have h1 : (⌊q⌋ : ℚ) ≤ q := Int.floor_le q
  have h2 : q < ⌊q⌋ + 1 := Int.lt_floor_add_one q
  unfold roundHalfEven
  split_ifs <;> constructor <;> push_cast <;> linarith

theorem pyRound1_bounds (q : ℚ) (hq1 : 1 ≤ q) (hq2 : q ≤ 10) :
    1 ≤ pyRound1 q ∧ pyRound1 q ≤ 10 := by
  obtain ⟨hl, hr⟩ := roundHalfEven_bounds (10 * q)
  have hge : (10 : ℤ) ≤ roundHalfEven (10 * q) := by
    have ha : (19 : ℚ) ≤ 2 * (roundHalfEven (10 * q) : ℚ) := by linarith
    have hb : (19 : ℤ) ≤ 2 * roundHalfEven (10 * q) := by exact_mod_cast ha
    omega
  have hle : roundHalfEven (10 * q) ≤ (100 : ℤ) := by
    have ha : 2 * (roundHalfEven (10 * q) : ℚ) ≤ 201 := by linarith
    have hb : 2 * roundHalfEven (10 * q) ≤ (201 : ℤ) := by exact_mod_cast ha
    omega
  have hge2 : (10 : ℚ) ≤ (roundHalfEven (10 * q) : ℚ) := by exact_mod_cast hge
  have hle2 : (roundHalfEven (10 * q) : ℚ) ≤ 100 := by exact_mod_cast hle
  unfold pyRound1
  constructor <;> linarith

theorem uniqueKeepFirst_go_mem (l : List String) :
    ∀ (seen : List String) (x : String),
      x ∈ uniqueKeepFirst.go seen l ↔ x ∈ l ∧ x ∉ seen := by
  induction l with
  | nil => intro seen x; simp [uniqueKeepFirst.go]
  | cons z zs ih =>
    intro seen x
    by_cases hz : z ∈ seen
    · rw [uniqueKeepFirst.go, if_pos hz, ih]
      constructor
      · rintro ⟨hx, hns⟩; exact ⟨List.mem_cons_of_mem _ hx, hns⟩
      · rintro ⟨hx, hns⟩
        rcases List.mem_cons.mp hx with rfl | hx2
        · exact absurd hz hns
        · exact ⟨hx2, hns⟩
    · rw [uniqueKeepFirst.go, if_neg hz]
      constructor
      · intro hx
        rcases List.mem_cons.mp hx with rfl | hx2
        · exact ⟨List.mem_cons_self _ _, hz⟩
        · obtain ⟨h3, h4⟩ := (ih (z :: seen) x).mp hx2
          exact ⟨List.mem_cons_of_mem _ h3,
            fun hs => h4 (List.mem_cons_of_mem _ hs)⟩
      · rintro ⟨hx, hns⟩
        rcases List.mem_cons.mp hx with rfl | hx2
        · exact List.mem_cons_self _ _
        · by_cases hxz : x = z
          · subst hxz; exact List.mem_cons_self _ _
          · exact List.mem_cons_of_mem _ ((ih (z :: seen) x).mpr
              ⟨hx2, fun hs => (List.mem_cons.mp hs).elim hxz hns⟩)

theorem uniqueKeepFirst_go_nodup (l : List String) :
    ∀ seen : List String, (uniqueKeepFirst.go seen l).Nodup := by
  induction l with
  | nil => intro seen; simp [uniqueKeepFirst.go]
  | cons z zs ih =>
    intro seen
    by_cases hz : z ∈ seen
    · rw [uniqueKeepFirst.go, if_pos hz]; exact ih seen
    · rw [uniqueKeepFirst.go, if_neg hz]
      refine List.nodup_cons.mpr ⟨fun hmem => ?_, ih (z :: seen)⟩
      exact ((uniqueKeepFirst_go_mem zs (z :: seen) z).mp hmem).2
        (List.mem_cons_self _ _)

theorem uniqueKeepFirst_mem (l : List String) (x : String) :
    x ∈ uniqueKeepFirst l ↔ x ∈ l := by
  rw [uniqueKeepFirst, uniqueKeepFirst_go_mem]; simp

theorem uniqueKeepFirst_nodup (l : List String) : (uniqueKeepFirst l).Nodup :=
  uniqueKeepFirst_go_nodup l []

theorem uniqueKeepFirst_go_sublist (l : List String) :
    ∀ seen : List String, (uniqueKeepFirst.go seen l).Sublist l := by
  induction l with
  | nil => intro seen; simp [uniqueKeepFirst.go]
  | cons z zs ih =>
    intro seen
    by_cases hz : z ∈ seen
    · rw [uniqueKeepFirst.go, if_pos hz]; exact (ih seen).cons _
    · rw [uniqueKeepFirst.go, if_neg hz]; exact (ih (z :: seen)).cons₂ _

theorem uniqueKeepFirst_sublist (l : List String) : (uniqueKeepFirst l).Sublist l :=
  uniqueKeepFirst_go_sublist l []

theorem uniqueKeepFirst_go_congr (l : List String) :
    ∀ seen1 seen2 : List String, (∀ y ∈ l, (y ∈ seen1 ↔ y ∈ seen2)) →
      uniqueKeepFirst.go seen1 l = uniqueKeepFirst.go seen2 l := by
  induction l with
  | nil => intro _ _ _; rfl
  | cons z zs ih =>
    intro seen1 seen2 h
    have hz := h z (List.mem_cons_self _ _)
    by_cases h1 : z ∈ seen1
    · rw [uniqueKeepFirst.go, if_pos h1, uniqueKeepFirst.go, if_pos (hz.mp h1)]
      exact ih seen1 seen2 (fun y hy => h y (List.mem_cons_of_mem _ hy))
    · have h2 : z ∉ seen2 := fun hin => h1 (hz.mpr hin)
      rw [uniqueKeepFirst.go, if_neg h1, uniqueKeepFirst.go, if_neg h2]
      congr 1
      refine ih (z :: seen1) (z :: seen2) (fun y hy => ?_)
      have hy2 := h y (List.mem_cons_of_mem _ hy)
      simp only [List.mem_cons]
      exact or_congr Iff.rfl hy2

theorem uniqueKeepFirst_go_filter (l : List String) :
    ∀ (seen : List String) (x : String), x ∈ seen →
      uniqueKeepFirst.go seen (l.filter (fun y => y ≠ x)) = uniqueKeepFirst.go seen l := by
  induction l with
  | nil => intro _ _ _; rfl
  | cons z zs ih =>
    intro seen x hx
    by_cases hzx : z = x
    · subst hzx
      have hfc : (z :: zs).filter (fun y => y ≠ z) = zs.filter (fun y => y ≠ z) := by
        simp [List.filter_cons]
      rw [hfc, ih seen z hx]
      rw [uniqueKeepFirst.go, if_pos hx]
    · have hfc : (z :: zs).filter (fun y => y ≠ x) = z :: zs.filter (fun y => y ≠ x) := by
        simp [List.filter_cons, hzx]
      rw [hfc]
      by_cases hz : z ∈ seen
      · rw [uniqueKeepFirst.go, if_pos hz, uniqueKeepFirst.go, if_pos hz]
        exact ih seen x hx
      · rw [uniqueKeepFirst.go, if_neg hz, uniqueKeepFirst.go, if_neg hz]
        congr 1
        exact ih (z :: seen) x (List.mem_cons_of_mem _ hx)

theorem uniqueKeepFirst_cons (x : String) (xs : List String) :
    uniqueKeepFirst (x :: xs) = x :: uniqueKeepFirst (xs.filter (fun y => y ≠ x)) := by
  show uniqueKeepFirst.go [] (x :: xs) = _
  rw [uniqueKeepFirst.go, if_neg (List.not_mem_nil x)]
  show _ = x :: uniqueKeepFirst.go [] (xs.filter (fun y => y ≠ x))
  congr 1
  rw [← uniqueKeepFirst_go_filter xs [x] x (List.mem_cons_self _ _)]
  refine uniqueKeepFirst_go_congr _ [x] [] (fun y hy => ?_)
  have hyx : y ≠ x := by
    have := List.of_mem_filter hy
    simpa using this
  simp [hyx]

theorem uniqueKeepFirstJson_go_not_seen (l : List Json) :
    ∀ (seen : List Json) (x : Json), x ∈ uniqueKeepFirstJson.go seen l →
      ∀ y ∈ seen, jsonBeq y x = false := by
  induction l with
  | nil => intro seen x hx; simp [uniqueKeepFirstJson.go] at hx
  | cons z zs ih =>
    intro seen x hx y hy
    by_cases hz : seen.any (fun w => jsonBeq w z) = true
    · rw [uniqueKeepFirstJson.go, if_pos hz] at hx
      exact ih seen x hx y hy
    · rw [uniqueKeepFirstJson.go, if_neg hz] at hx
      rcases List.mem_cons.mp hx with rfl | hx2
      · exact Bool.eq_false_iff.mpr ((List.any_eq_false.mp (Bool.eq_false_iff.mpr hz)) y hy)
      · exact ih (z :: seen) x hx2 y (List.mem_cons_of_mem _ hy)

theorem uniqueKeepFirstJson_go_nodup (l : List Json) :
    ∀ seen : List Json, (uniqueKeepFirstJson.go seen l).Nodup := by
  induction l with
  | nil => intro seen; simp [uniqueKeepFirstJson.go]
  | cons z zs ih =>
    intro seen
    by_cases hz : seen.any (fun w => jsonBeq w z) = true
    · rw [uniqueKeepFirstJson.go, if_pos hz]; exact ih seen
    · rw [uniqueKeepFirstJson.go, if_neg hz]
      refine List.nodup_cons.mpr ⟨fun hmem => ?_, ih (z :: seen)⟩
      have hfalse := uniqueKeepFirstJson_go_not_seen zs (z :: seen) z hmem z
        (List.mem_cons_self _ _)
      rw [jsonBeq_refl z] at hfalse
      exact Bool.noConfusion hfalse

theorem uniqueKeepFirstJson_nodup (l : List Json) : (uniqueKeepFirstJson l).Nodup :=
  uniqueKeepFirstJson_go_nodup l []

theorem pyGet_map_replace (d : PyDict) (k : String) (v : Json) :
    (pyGet d k).isSome = true →
    pyGet (d.map (fun kv => if kv.1 = k then (kv.1, v) else kv)) k = some v := by
  induction d with
  | nil => intro h; simp [pyGet] at h
  | cons kv rest ih =>
    intro h
    by_cases hk : kv.1 = k
    · simp only [List.map_cons]
      rw [if_pos hk]
      simp only [pyGet]
      rw [if_pos hk.symm]
    · have hk2 : ¬ k = kv.1 := fun he => hk he.symm
      have h2 : (pyGet rest k).isSome = true := by
        rw [pyGet, if_neg hk2] at h; exact h
      simp only [List.map_cons]
      rw [if_neg hk]
      rw [pyGet, if_neg hk2]
      exact ih h2

theorem pyGet_append_right (d : PyDict) (k : String) (v : Json) :
    pyGet d k = none → pyGet (d ++ [(k, v)]) k = some v := by
  induction d with
  | nil => intro _; simp [pyGet]
  | cons kv rest ih =>
    intro h
    by_cases hk : k = kv.1
    · rw [pyGet, if_pos hk] at h; exact absurd h (by simp)
    · rw [List.cons_append, pyGet, if_neg hk]
      exact ih (by rw [pyGet, if_neg hk] at h; exact h)

theorem pyGet_pyInsert_self (d : PyDict) (k : String) (v : Json) :
    pyGet (pyInsert d k v) k = some v := by
  unfold pyInsert
  split_ifs with h
  · exact pyGet_map_replace d k v h
  · exact pyGet_append_right d k v (by
      cases hd : pyGet d k with
      | none => rfl
      | some w => rw [hd] at h; simp at h)

theorem pyGet_map_ne (d : PyDict) (k k2 : String) (v : Json) (h : k2 ≠ k) :
    pyGet (d.map (fun kv => if kv.1 = k then (kv.1, v) else kv)) k2 = pyGet d k2 := by
  induction d with
  | nil => simp
  | cons kv rest ih =>
    by_cases hk : kv.1 = k
    · simp only [List.map_cons]
      rw [if_pos hk]
      simp only [pyGet]
      rw [if_neg (hk ▸ h), if_neg (hk ▸ h)]
      exact ih
    · simp only [List.map_cons]
      rw [if_neg hk]
      simp only [pyGet]
      by_cases hx : k2 = kv.1
      · rw [if_pos hx, if_pos hx]
      · rw [if_neg hx, if_neg hx]
        exact ih

theorem pyGet_append_ne (d : PyDict) (k k2 : String) (v : Json) (h : k2 ≠ k) :
    pyGet (d ++ [(k, v)]) k2 = pyGet d k2 := by
  induction d with
  | nil => simp [pyGet, h]
  | cons kv rest ih =>
    rw [List.cons_append]
    simp only [pyGet]
    by_cases hx : k2 = kv.1
    · rw [if_pos hx, if_pos hx]
    · rw [if_neg hx, if_neg hx]
      exact ih

theorem pyGet_pyInsert_ne (d : PyDict) (k k2 : String) (v : Json) (h : k2 ≠ k) :
    pyGet (pyInsert d k v) k2 = pyGet d k2 := by
  unfold pyInsert
  split_ifs with hs
  · exact pyGet_map_ne d k k2 v h
  · exact pyGet_append_ne d k k2 v h

theorem countStep_sum (acc : ℕ × ℕ × ℕ) (rec : PyDict) :
    (countStep acc rec).1 + (countStep acc rec).2.1 + (countStep acc rec).2.2
      = acc.1 + acc.2.1 + acc.2.2 + 1 := by
  simp only [countStep]
  split_ifs <;> simp <;> omega

theorem countStatuses_foldl_sum (l : List PyDict) :
    ∀ acc : ℕ × ℕ × ℕ,
      (l.foldl countStep acc).1 + (l.foldl countStep acc).2.1 + (l.foldl countStep acc).2.2
        = acc.1 + acc.2.1 + acc.2.2 + l.length := by
  induction l with
  | nil => intro acc; simp
  | cons r rs ih =>
    intro acc
    rw [List.foldl_cons, ih (countStep acc r), countStep_sum]
    simp; omega

theorem countStatuses_sum (l : List PyDict) :
    (countStatuses l).1 + (countStatuses l).2.1 + (countStatuses l).2.2 = l.length := by
  have h := countStatuses_foldl_sum l (0, 0, 0)
  simpa [countStatuses] using h

theorem linkAggLoop_foldl (l : List PyDict) :
    ∀ acc : List Json × List Json × List Json,
      l.foldl linkAggStep acc =
        (acc.1 ++ ((l.filter fun r => usefulStatuses.contains (statusStr r)).map
            themeContrib).flatten,
         acc.2.1 ++ ((l.filter fun r => usefulStatuses.contains (statusStr r)).map
            (listContrib "key_points")).flatten,
         acc.2.2 ++ ((l.filter fun r => usefulStatuses.contains (statusStr r)).map
            (listContrib "relevant_quotes")).flatten) := by
  induction l with
  | nil => intro acc; simp
  | cons r rs ih =>
    intro acc
    rw [List.foldl_cons, ih (linkAggStep acc r)]
    by_cases hp : statusStr r ∈ usefulStatuses
    · simp [List.filter_cons, hp, linkAggStep, List.append_assoc]
    · simp [List.filter_cons, hp, linkAggStep]

theorem linkAggLoop_eq (l : List PyDict) :
    linkAggLoop l =
      (((l.filter fun r => usefulStatuses.contains (statusStr r)).map themeContrib).flatten,
       ((l.filter fun r => usefulStatuses.contains (statusStr r)).map
          (listContrib "key_points")).flatten,
       ((l.filter fun r => usefulStatuses.contains (statusStr r)).map
          (listContrib "relevant_quotes")).flatten) := by
  have h := linkAggLoop_foldl l ([], [], [])
  simpa [linkAggLoop] using h

theorem aggregateInsights_foldl (l : List PyDict) :
    ∀ acc : AggregatedInsights,
      l.foldl insightStep acc =
        { all_trends := acc.all_trends ++
            ((l.filter fun r => (pyGet r "error").isNone).map
              (researchContrib "current_trends")).flatten,
          all_statistics := acc.all_statistics ++
            ((l.filter fun r => (pyGet r "error").isNone).map
              (researchContrib "key_statistics")).flatten,
          all_implications := acc.all_implications ++
            ((l.filter fun r => (pyGet r "error").isNone).map
              (researchContrib "industry_implications")).flatten,
          all_angles := acc.all_angles ++
            ((l.filter fun r => (pyGet r "error").isNone).map
              (researchContrib "linkedin_angles")).flatten,
          all_actionable_insights := acc.all_actionable_insights ++
            ((l.filter fun r => (pyGet r "error").isNone).map
              (researchContrib "actionable_insights")).flatten } := by
  induction l with
  | nil => intro acc; simp
  | cons r rs ih =>
    intro acc
    rw [List.foldl_cons, ih (insightStep acc r)]
    by_cases hp : (pyGet r "error").isNone = true
    · have hs : (pyGet r "error").isSome = false := by
        cases h : pyGet r "error" with
        | none => rfl
        | some w => rw [h] at hp; simp at hp
      simp [List.filter_cons, hp, insightStep, hs, List.append_assoc]
    · have hs : (pyGet r "error").isSome = true := by
        cases h : pyGet r "error" with
        | none => rw [h] at hp; simp at hp
        | some w => rfl
      simp [List.filter_cons, hp, insightStep, hs]

theorem aggregateInsights_eq (l : List PyDict) :
    aggregateInsights l =
      { all_trends := ((l.filter fun r => (pyGet r "error").isNone).map
          (researchContrib "current_trends")).flatten,
        all_statistics := ((l.filter fun r => (pyGet r "error").isNone).map
          (researchContrib "key_statistics")).flatten,
        all_implications := ((l.filter fun r => (pyGet r "error").isNone).map
          (researchContrib "industry_implications")).flatten,
        all_angles := ((l.filter fun r => (pyGet r "error").isNone).map
          (researchContrib "linkedin_angles")).flatten,
        all_actionable_insights := ((l.filter fun r => (pyGet r "error").isNone).map
          (researchContrib "actionable_insights")).flatten } := by
  have h := aggregateInsights_foldl l
    { all_trends := [], all_statistics := [], all_implications := [],
      all_angles := [], all_actionable_insights := [] }
  simpa [aggregateInsights] using h

theorem pyGet_pyUpdate4_status (kvs : PyDict) (u s c m : Json) :
    pyGet (pyUpdate kvs
      [("url", u), ("status", s), ("content_length", c), ("extraction_method", m)])
      "status" = some s := by
  simp only [pyUpdate, List.foldl_cons, List.foldl_nil]
  rw [pyGet_pyInsert_ne _ _ _ _ (by decide), pyGet_pyInsert_ne _ _ _ _ (by decide),
    pyGet_pyInsert_self]

theorem fetch_status_mem (url : String) (o : FetchOutcome) :
    ∃ s, pyGet (fetch_and_analyze_content url o) "status" = some (.str s)
      ∧ s ∈ statusUniverse := by
  cases o with
  | outerExc e => exact ⟨"fallback", rfl, by simp [statusUniverse]⟩
  | tavilyUnavailable => exact ⟨"fallback", rfl, by simp [statusUniverse]⟩
  | extractRaised e => exact ⟨"fallback", rfl, by simp [statusUniverse]⟩
  | noResults => exact ⟨"fallback", rfl, by simp [statusUniverse]⟩
  | gotContent title raw llm =>
    rw [fetch_and_analyze_content]
    by_cases h1 : raw = "" ∨ raw.length < 50
    · rw [if_pos h1]; exact ⟨"fallback", rfl, by simp [statusUniverse]⟩
    · rw [if_neg h1]
      cases llm with
      | none => exact ⟨"fallback", rfl, by simp [statusUniverse]⟩
      | some text =>
        dsimp only
        cases hspan : braceSpan text with
        | none =>
          refine ⟨if 200 < text.length then "partial_success" else "failed", rfl, ?_⟩
          split_ifs <;> simp [statusUniverse]
        | some span =>
          dsimp only
          cases hload : jsonLoadsE span with
          | error e =>
            refine ⟨if 200 < text.length then "partial_success" else "failed", rfl, ?_⟩
            split_ifs <;> simp [statusUniverse]
          | ok v =>
            cases v with
            | obj kvs =>
              exact ⟨"success", pyGet_pyUpdate4_status kvs _ _ _ _,
                by simp [statusUniverse]⟩
            | null => exact ⟨"fallback", rfl, by simp [statusUniverse]⟩
            | bool b => exact ⟨"fallback", rfl, by simp [statusUniverse]⟩
            | num q => exact ⟨"fallback", rfl, by simp [statusUniverse]⟩
            | str s2 => exact ⟨"fallback", rfl, by simp [statusUniverse]⟩
            | arr xs => exact ⟨"fallback", rfl, by simp [statusUniverse]⟩
            | const c2 => exact ⟨"fallback", rfl, by simp [statusUniverse]⟩

/-! ## Claim theorems -/

/-- C2: the claim says example-post selection returns between `min(3, n)`
and `min(4, n)` posts without raising for every population size `n`, using
all posts when fewer than 3 exist.  The code computes a sample size of 3
for `n = 1` and `n = 2` and `random.sample` then raises `ValueError`; the
claim holds only for `n = 0` and `n ≥ 3`. -/
theorem c2_sample_size_small_corpus_raises :
    load_example_posts_count 4 1 = .error "Sample larger than population or is negative"
    ∧ load_example_posts_count 4 2 = .error "Sample larger than population or is negative"
    ∧ load_example_posts_count 4 0 = .ok 0
    ∧ load_example_posts_count 4 3 = .ok 3
    ∧ load_example_posts_count 4 4 = .ok 4
    ∧ load_example_posts_count 4 7 = .ok 4 :=
  ⟨rfl, rfl, rfl, rfl, rfl, rfl⟩

/-- C8 (counterexample): the candidate `http://a.b` normalizes to itself,
contains a dot and is not shorter than 10 characters (its length is
exactly 10), yet the cleaning step discards it, because the code keeps
only candidates strictly longer than 10 characters. -/
theorem c8_length_ten_discarded :
    normalizeUrl "http://a.b" = "http://a.b"
    ∧ hasDot "http://a.b" = true
    ∧ ("http://a.b" : String).length = 10
    ∧ cleanUrls ["http://a.b"] = []
    ∧ detect_links ["http://a.b"] = [] :=
  ⟨rfl, rfl, rfl, rfl, rfl⟩

/-- C8 (amended): URL detection normalizes every raw regex match
(prepending `https://` to protocol-less matches, stripping trailing
punctuation) and keeps exactly those candidates that contain a dot and
are strictly longer than 10 characters; the final output deduplicates
them preserving first-seen order: it is `uniqueKeepFirst` of the kept
candidates, a duplicate-free sublist of them (so relative order is
preserved), and `uniqueKeepFirst` is pinned down by the textbook
first-seen recursion (the head is kept, its later duplicates are
dropped, the rest is deduplicated recursively). -/
theorem c8_url_cleaning_filter (rawMatches : List String) (u : String) :
    (u ∈ cleanUrls rawMatches ↔
      (∃ m ∈ rawMatches, normalizeUrl m = u) ∧ hasDot u = true ∧ 10 < u.length)
    ∧ (u ∈ detect_links rawMatches ↔ u ∈ cleanUrls rawMatches)
    ∧ (detect_links rawMatches).Nodup
    ∧ detect_links rawMatches = uniqueKeepFirst (cleanUrls rawMatches)
    ∧ (detect_links rawMatches).Sublist (cleanUrls rawMatches)
    ∧ uniqueKeepFirst ([] : List String) = []
    ∧ (∀ (x : String) (xs : List String),
        uniqueKeepFirst (x :: xs) = x :: uniqueKeepFirst (xs.filter (fun y => y ≠ x))) := by
  refine ⟨?_, uniqueKeepFirst_mem _ _, uniqueKeepFirst_nodup _, rfl,
    uniqueKeepFirst_sublist _, rfl, uniqueKeepFirst_cons⟩
  simp [cleanUrls, List.mem_filter, List.mem_map, and_assoc]

/-- C7: the score-to-grade map is the fixed threshold map (≥9 → A, ≥8 →
B+, ≥7 → B, ≥6 → C+, ≥5 → C, else D) and is monotone: a higher score
never gets a worse letter grade. -/
theorem c7_grade_monotone_threshold :
    (∀ s1 s2 : ℚ, s1 ≤ s2 → gradeRank (score_to_grade s1) ≤ gradeRank (score_to_grade s2))
    ∧ (∀ s : ℚ,
        (9 ≤ s → score_to_grade s = "A")
        ∧ (8 ≤ s → s < 9 → score_to_grade s = "B+")
        ∧ (7 ≤ s → s < 8 → score_to_grade s = "B")
        ∧ (6 ≤ s → s < 7 → score_to_grade s = "C+")
        ∧ (5 ≤ s → s < 6 → score_to_grade s = "C")
        ∧ (s < 5 → score_to_grade s = "D")) := by
  constructor
  · intro s1 s2 h
    unfold score_to_grade
    split_ifs <;> first | decide | linarith
  · intro s
    refine ⟨fun h1 => ?_, fun h1 h2 => ?_, fun h1 h2 => ?_, fun h1 h2 => ?_,
      fun h1 h2 => ?_, fun h1 => ?_⟩ <;>
      (unfold score_to_grade; split_ifs <;> first | rfl | linarith)

/-- Witness for C7 at concrete scores. -/
theorem c7_grade_monotone_threshold_witness :
    gradeRank (score_to_grade 5) ≤ gradeRank (score_to_grade 7)
    ∧ score_to_grade 9 = "A"
    ∧ score_to_grade (15 / 2) = "B" :=
  ⟨c7_grade_monotone_threshold.1 5 7 (by norm_num),
   (c7_grade_monotone_threshold.2 9).1 (by norm_num),
   (c7_grade_monotone_threshold.2 (15 / 2)).2.2.1 (by norm_num) (by norm_num)⟩

/-- C5: every analysis or extraction operation that parses an LLM response
returns a well-typed structure instead of raising: the feedback analysis
methods and the research parser never propagate an exception. -/
theorem c5_parse_never_raises :
    (∀ (analysisType : String) (agentResult : Except String String),
      (analyzeWithFallback analysisType agentResult).isOk = true)
    ∧ (∀ (topic : String) (agentResult : Except String String),
      (research_topic topic agentResult).isOk = true) := by
  constructor
  · intro t r
    unfold analyzeWithFallback
    cases h : analyzeTry t r <;> rfl
  · intro t r
    unfold research_topic
    cases h : researchTopicTry t r <;> rfl

/-- C6: the overall score is the arithmetic mean of the four sub-scores
(each defaulting to 5 when absent) rounded to one decimal, it lies in
[1, 10] whenever each sub-score does, and sub-scores 9, 7, 8, 6 give an
overall score of 7.5 with grade B. -/
theorem c6_overall_score_mean :
    (∀ (inst style read struct : PyDict) (a b c d : ℚ),
      getScore inst "alignment_score" = .num a →
      getScore style "style_score" = .num b →
      getScore read "readability_score" = .num c →
      getScore struct "structure_score" = .num d →
      1 ≤ a → a ≤ 10 → 1 ≤ b → b ≤ 10 → 1 ≤ c → c ≤ 10 → 1 ≤ d → d ≤ 10 →
      overallAssessment inst style read struct =
        some (pyRound1 ((a + b + c + d) / 4), score_to_grade ((a + b + c + d) / 4))
      ∧ 1 ≤ pyRound1 ((a + b + c + d) / 4) ∧ pyRound1 ((a + b + c + d) / 4) ≤ 10)
    ∧ overallAssessment [("alignment_score", .num 9)] [("style_score", .num 7)]
        [("readability_score", .num 8)] [("structure_score", .num 6)]
        = some (15 / 2, "B") := by
  constructor
  · intro inst style read struct a b c d ha hb hc hd h1 h2 h3 h4 h5 h6 h7 h8
    have hmean1 : 1 ≤ (a + b + c + d) / 4 := by linarith
    have hmean2 : (a + b + c + d) / 4 ≤ 10 := by linarith
    obtain ⟨hr1, hr2⟩ := pyRound1_bounds _ hmean1 hmean2
    refine ⟨?_, hr1, hr2⟩
    unfold overallAssessment
    rw [ha, hb, hc, hd]
  · have h1 : overallAssessment [("alignment_score", .num 9)] [("style_score", .num 7)]
        [("readability_score", .num 8)] [("structure_score", .num 6)]
        = some (pyRound1 ((9 + 7 + 8 + 6) / 4), score_to_grade ((9 + 7 + 8 + 6) / 4)) := rfl
    rw [h1]
    have h2 : ((9 : ℚ) + 7 + 8 + 6) / 4 = 15 / 2 := by norm_num
    rw [h2]
    have h3 : pyRound1 (15 / 2) = 15 / 2 := by
      unfold pyRound1 roundHalfEven
      norm_num
    have h4 : score_to_grade (15 / 2) = "B" := by
      unfold score_to_grade
      rw [if_neg (by norm_num), if_neg (by norm_num), if_pos (by norm_num)]
    rw [h3, h4]

/-- Witness for C6: sub-scores 2 and 10 with two absent sub-scores
(defaulting to 5). -/
theorem c6_overall_score_mean_witness :
    overallAssessment [("alignment_score", Json.num 2)] [] []
        [("structure_score", Json.num 10)]
      = some (pyRound1 ((2 + 5 + 5 + 10) / 4), score_to_grade ((2 + 5 + 5 + 10) / 4))
    ∧ 1 ≤ pyRound1 ((2 + 5 + 5 + 10) / 4) ∧ pyRound1 ((2 + 5 + 5 + 10) / 4) ≤ 10 :=
  c6_overall_score_mean.1 _ _ _ _ 2 5 5 10 rfl rfl rfl rfl (by norm_num) (by norm_num)
    (by norm_num) (by norm_num) (by norm_num) (by norm_num) (by norm_num) (by norm_num)

/-- C3 (counterexample): an LLM response consisting of an empty JSON
array parses successfully and topic extraction returns zero topics, not
the at-least-one the claim promises. -/
theorem c3_empty_array_zero_topics :
    extract_topics (.ok "[]") = [] ∧ jsonLoadsE "[]" = .ok (.arr []) :=
  ⟨rfl, rfl⟩

/-- C3 (amended): topic extraction returns at most 5 topics; when the
response has no bracketed span the bullet fallback or the hardcoded
default guarantees at least one topic; a span that fails to parse (or a
raised call) yields the hardcoded 3-topic exception list; a span parsing
to an array yields its first 5 elements — in particular an empty array
yields zero topics. -/
theorem c3_topic_extraction_amended :
    (∀ text : String,
      (extract_topics (.ok text)).length ≤ 5
      ∧ (bracketSpan text = none → 1 ≤ (extract_topics (.ok text)).length)
      ∧ (∀ span e, bracketSpan text = some span → jsonLoadsE span = .error e →
          extract_topics (.ok text) = extractTopicsErrList)
      ∧ (∀ span xs, bracketSpan text = some span → jsonLoadsE span = .ok (.arr xs) →
          extract_topics (.ok text) = xs.take 5))
    ∧ (∀ e : String, extract_topics (.error e) = extractTopicsErrList) := by
  constructor
  · intro text
    refine ⟨?_, ?_, ?_, ?_⟩
    · unfold extract_topics
      dsimp only
      cases hspan : bracketSpan text with
      | none =>
        dsimp only
        by_cases hb : (bulletTopics text).isEmpty
        · simp [hb, extractTopicsDefaultList]
        · simp only [hb, if_false, Bool.false_eq_true]
          exact le_trans (List.length_take_le _ _) (le_refl 5)
      | some span =>
        dsimp only
        cases hload : jsonLoadsE span with
        | error e => simp [extractTopicsErrList]
        | ok v =>
          cases v <;> simp [extractTopicsErrList, List.length_take_le]
    · intro hspan
      unfold extract_topics
      dsimp only
      rw [hspan]
      dsimp only
      by_cases hb : (bulletTopics text).isEmpty
      · simp [hb, extractTopicsDefaultList]
      · simp only [hb, if_false, Bool.false_eq_true]
        rw [List.length_take]
        have : 1 ≤ (bulletTopics text).length := by
          cases h : bulletTopics text with
          | nil => rw [h] at hb; simp at hb
          | cons a l => simp
        omega
    · intro span e hspan hload
      unfold extract_topics
      dsimp only
      rw [hspan]
      dsimp only
      rw [hload]
    · intro span xs hspan hload
      unfold extract_topics
      dsimp only
      rw [hspan]
      dsimp only
      rw [hload]
  · intro e; rfl

/-- Witness for C3 at concrete responses: a plain text (no span), a span
that fails to parse, and a span parsing to a one-element array. -/
theorem c3_topic_extraction_amended_witness :
    (extract_topics (.ok "no bullets")).length ≤ 5
    ∧ 1 ≤ (extract_topics (.ok "no bullets")).length
    ∧ extract_topics (.ok "[1,]") = extractTopicsErrList
    ∧ extract_topics (.ok "[true]") = [Json.bool true].take 5 :=
  ⟨(c3_topic_extraction_amended.1 "no bullets").1,
   (c3_topic_extraction_amended.1 "no bullets").2.1 rfl,
   (c3_topic_extraction_amended.1 "[1,]").2.2.1 "[1,]" "Expecting value: [1,]" rfl rfl,
   (c3_topic_extraction_amended.1 "[true]").2.2.2 "[true]" [Json.bool true] rfl rfl⟩

/-- C4 (counterexample): the response holds the well-formed JSON object
between the braces followed by a stray closing brace.  The text contains
a well-formed object, but the greedy first-to-last brace span is not
valid JSON, so the parser returns the fallback wrapper instead of that
object. -/
theorem c4_trailing_brace_not_returned :
    strContains "\x7b\"a\": true\x7d \x7d" "\x7b\"a\": true\x7d" = true
    ∧ jsonLoadsE "\x7b\"a\": true\x7d" = .ok (.obj [("a", .bool true)])
    ∧ analyze_instruction_alignment (.ok "\x7b\"a\": true\x7d \x7d")
        = .ok (.obj (createFallbackAnalysis "instruction_alignment"
            ("Extra data: " ++ ("\x7b\"a\": true\x7d \x7d" : String).take 30)))
    ∧ analyze_instruction_alignment (.ok "\x7b\"a\": true\x7d \x7d")
        ≠ .ok (.obj [("a", .bool true)]) := by
  refine ⟨rfl, rfl, rfl, ?_⟩
  intro h
  have key : analyze_instruction_alignment (.ok "\x7b\"a\": true\x7d \x7d")
      = (Except.ok (Json.obj (createFallbackAnalysis "instruction_alignment"
          ("Extra data: " ++ ("\x7b\"a\": true\x7d \x7d" : String).take 30))) :
        Except String Json) := rfl
  rw [key] at h
  have h1 := Except.ok.inj h
  injection h1 with h2
  injection h2 with h3 h4
  injection h3 with h5 h6
  exact absurd h5 (by decide)

/-- C4 (amended): whenever the greedy first-to-last brace span of the
response parses as JSON, the analysis returns that parsed value
unchanged; when the response has no brace pair, it returns the
non-throwing partial fallback wrapper, whose `raw_content` carries the
raw text, truncated to its first 500 characters plus an ellipsis when
longer than 500. -/
theorem c4_parser_amended :
    (∀ (content span : String) (v : Json), braceSpan content = some span →
        jsonLoadsE span = .ok v →
        analyze_instruction_alignment (.ok content) = .ok v)
    ∧ (∀ content : String, braceSpan content = none →
        analyze_instruction_alignment (.ok content)
          = .ok (.obj (createFallbackAnalysis "instruction_alignment" content)))
    ∧ (∀ analysisType content : String, ∃ rc,
        pyGet (createFallbackAnalysis analysisType content) "raw_content"
          = some (.str rc)
        ∧ pyGet (createFallbackAnalysis analysisType content) "status"
          = some (.str "partial")
        ∧ ((content.length ≤ 500 ∧ rc = content)
           ∨ (500 < content.length ∧ rc = content.take 500 ++ "..."))) := by
  refine ⟨?_, ?_, ?_⟩
  · intro content span v h1 h2
    unfold analyze_instruction_alignment analyzeWithFallback analyzeTry
    dsimp only [Bind.bind, Except.bind]
    rw [h1]
    dsimp only
    rw [h2]
    rfl
  · intro content h1
    unfold analyze_instruction_alignment analyzeWithFallback analyzeTry
    dsimp only [Bind.bind, Except.bind]
    rw [h1]
    rfl
  · intro t content
    have hraw : pyGet (createFallbackAnalysis t content) "raw_content"
        = some (.str (if content.length > 500 then content.take 500 ++ "..." else content)) :=
      rfl
    by_cases h : 500 < content.length
    · refine ⟨content.take 500 ++ "...", ?_, rfl, Or.inr ⟨h, rfl⟩⟩
      rw [hraw, if_pos h]
    · refine ⟨content, ?_, rfl, Or.inl ⟨by omega, rfl⟩⟩
      rw [hraw, if_neg h]

/-- Witness for C4 at concrete responses: a parsable span, a brace-less
text, and the fallback wrapper of a short text. -/
theorem c4_parser_amended_witness :
    analyze_instruction_alignment (.ok "ok \x7b\"s\": null\x7d") = .ok (.obj [("s", Json.null)])
    ∧ analyze_instruction_alignment (.ok "plain")
        = .ok (.obj (createFallbackAnalysis "instruction_alignment" "plain"))
    ∧ ∃ rc, pyGet (createFallbackAnalysis "instruction_alignment" "short") "raw_content"
          = some (.str rc)
        ∧ pyGet (createFallbackAnalysis "instruction_alignment" "short") "status"
          = some (.str "partial")
        ∧ ((("short" : String).length ≤ 500 ∧ rc = "short")
           ∨ (500 < ("short" : String).length ∧ rc = ("short" : String).take 500 ++ "...")) :=
  ⟨c4_parser_amended.1 "ok \x7b\"s\": null\x7d" "\x7b\"s\": null\x7d" (.obj [("s", Json.null)]) rfl rfl,
   c4_parser_amended.2.1 "plain" rfl,
   c4_parser_amended.2.2 "instruction_alignment" "short"⟩

theorem dedupStrRecs_not_seen (l : List Json) :
    ∀ (seen : List String) (x : String), x ∈ dedupStrRecs seen l → x ∉ seen := by
  induction l with
  | nil => intro seen x hx; simp [dedupStrRecs] at hx
  | cons r rest ih =>
    intro seen x hx
    cases r with
    | str s =>
      simp only [dedupStrRecs] at hx
      by_cases hs : s ∈ seen
      · rw [if_pos hs] at hx; exact ih seen x hx
      · rw [if_neg hs] at hx
        rcases List.mem_cons.mp hx with rfl | hx2
        · exact hs
        · intro hxseen
          exact ih (s :: seen) x hx2 (List.mem_cons_of_mem _ hxseen)
    | null => simp only [dedupStrRecs] at hx; exact ih seen x hx
    | bool b => simp only [dedupStrRecs] at hx; exact ih seen x hx
    | num q => simp only [dedupStrRecs] at hx; exact ih seen x hx
    | arr xs => simp only [dedupStrRecs] at hx; exact ih seen x hx
    | obj kvs => simp only [dedupStrRecs] at hx; exact ih seen x hx
    | const c => simp only [dedupStrRecs] at hx; exact ih seen x hx

theorem dedupStrRecs_nodup (l : List Json) :
    ∀ seen : List String, (dedupStrRecs seen l).Nodup := by
  induction l with
  | nil => intro seen; simp [dedupStrRecs]
  | cons r rest ih =>
    intro seen
    cases r with
    | str s =>
      simp only [dedupStrRecs]
      by_cases hs : s ∈ seen
      · rw [if_pos hs]; exact ih seen
      · rw [if_neg hs]
        refine List.nodup_cons.mpr ⟨fun hmem => ?_, ih (s :: seen)⟩
        exact dedupStrRecs_not_seen rest (s :: seen) s hmem (List.mem_cons_self _ _)
    | null => simp only [dedupStrRecs]; exact ih seen
    | bool b => simp only [dedupStrRecs]; exact ih seen
    | num q => simp only [dedupStrRecs]; exact ih seen
    | arr xs => simp only [dedupStrRecs]; exact ih seen
    | obj kvs => simp only [dedupStrRecs]; exact ih seen
    | const c => simp only [dedupStrRecs]; exact ih seen

theorem dedupStrRecs_map_sublist (l : List Json) :
    ∀ seen : List String, ((dedupStrRecs seen l).map Json.str).Sublist l := by
  induction l with
  | nil => intro seen; simp [dedupStrRecs]
  | cons r rest ih =>
    intro seen
    cases r with
    | str s =>
      simp only [dedupStrRecs]
      by_cases hs : s ∈ seen
      · rw [if_pos hs]; exact (ih seen).cons _
      · rw [if_neg hs]
        simp only [List.map_cons]
        exact (ih (s :: seen)).cons₂ _
    | null => simp only [dedupStrRecs]; exact (ih seen).cons _
    | bool b => simp only [dedupStrRecs]; exact (ih seen).cons _
    | num q => simp only [dedupStrRecs]; exact (ih seen).cons _
    | arr xs => simp only [dedupStrRecs]; exact (ih seen).cons _
    | obj kvs => simp only [dedupStrRecs]; exact (ih seen).cons _
    | const c => simp only [dedupStrRecs]; exact (ih seen).cons _

/-- C9: the compiled recommendation list has at most 8 entries, no
duplicates, is drawn from the pulled items in first-seen order (a
sublist of the concatenated pulls), and each named field of each
analysis contributes at most 2 items. -/
theorem c9_recommendations (a1 a2 a3 a4 : PyDict) :
    (compile_recommendations a1 a2 a3 a4).length ≤ 8
    ∧ (compile_recommendations a1 a2 a3 a4).Nodup
    ∧ ((compile_recommendations a1 a2 a3 a4).map Json.str).Sublist
        (pulledRecommendations a1 a2 a3 a4)
    ∧ (∀ (d : PyDict) (k : String), (pullField d k).length ≤ 2) := by
  refine ⟨?_, ?_, ?_, ?_⟩
  · exact List.length_take_le _ _
  · exact (dedupStrRecs_nodup _ []).sublist (List.take_sublist _ _)
  · exact ((List.take_sublist _ _).map Json.str).trans
      (dedupStrRecs_map_sublist (pulledRecommendations a1 a2 a3 a4) [])
  · intro d k
    unfold pullField
    cases h : pyGet d k with
    | none => simp
    | some v =>
      cases v <;> simp [List.length_take]

/-- C10: whenever at least one URL is found, every per-URL record carries
a status among success, partial_success, fallback and failed, and the
three reported counters partition the URLs: their sum equals
`total_urls`, which equals the length of `urls_found`. -/
theorem c10_status_partition (urls : List String) (env : String → FetchOutcome)
    (h : urls ≠ []) :
    (∀ rec ∈ (analyze_all_links urls env).content_summaries,
      ∃ s, pyGet rec "status" = some (.str s) ∧ s ∈ statusUniverse)
    ∧ (analyze_all_links urls env).successful_analyses
        + (analyze_all_links urls env).partial_analyses
        + (analyze_all_links urls env).failed_analyses
        = (analyze_all_links urls env).total_urls
    ∧ (analyze_all_links urls env).total_urls
        = (analyze_all_links urls env).urls_found.length := by
  have hne : urls.isEmpty = false := by
    cases urls with
    | nil => exact absurd rfl h
    | cons a l => rfl
  unfold analyze_all_links
  rw [hne]
  simp only [Bool.false_eq_true, if_false]
  refine ⟨?_, ?_, ?_⟩
  · intro rec hrec
    obtain ⟨u, _, rfl⟩ := List.mem_map.mp hrec
    exact fetch_status_mem u (env u)
  · have hsum := countStatuses_sum (urls.map fun u => fetch_and_analyze_content u (env u))
    rw [List.length_map] at hsum
    exact hsum
  · exact trivial

/-- Witness for C10: one detected URL whose extraction tool is
unavailable. -/
theorem c10_status_partition_witness :
    (∀ rec ∈ (analyze_all_links ["https://twitter.com/a"]
        (fun _ => FetchOutcome.tavilyUnavailable)).content_summaries,
      ∃ s, pyGet rec "status" = some (.str s) ∧ s ∈ statusUniverse)
    ∧ (analyze_all_links ["https://twitter.com/a"]
        (fun _ => FetchOutcome.tavilyUnavailable)).successful_analyses
        + (analyze_all_links ["https://twitter.com/a"]
            (fun _ => FetchOutcome.tavilyUnavailable)).partial_analyses
        + (analyze_all_links ["https://twitter.com/a"]
            (fun _ => FetchOutcome.tavilyUnavailable)).failed_analyses
        = (analyze_all_links ["https://twitter.com/a"]
            (fun _ => FetchOutcome.tavilyUnavailable)).total_urls
    ∧ (analyze_all_links ["https://twitter.com/a"]
        (fun _ => FetchOutcome.tavilyUnavailable)).total_urls
        = (analyze_all_links ["https://twitter.com/a"]
            (fun _ => FetchOutcome.tavilyUnavailable)).urls_found.length :=
  c10_status_partition ["https://twitter.com/a"] (fun _ => FetchOutcome.tavilyUnavailable)
    (by simp)

/-- C1 (counterexample): two social-media URLs whose extraction tool is
unavailable produce identical fallback key points, so the aggregated
`all_key_points` list contains duplicates: it is not deduplicated. -/
theorem c1_duplicate_key_points :
    ¬ ((analyze_all_links ["https://twitter.com/a", "https://x.com/b"]
        (fun _ => FetchOutcome.tavilyUnavailable)).all_key_points).Nodup := by
  intro h
  have e : (analyze_all_links ["https://twitter.com/a", "https://x.com/b"]
        (fun _ => FetchOutcome.tavilyUnavailable)).all_key_points
      = [Json.str "Social media post from Twitter/X platform",
         Json.str "May contain opinions or breaking news",
         Json.str "Could include viral content or trending topics",
         Json.str "Social media post from Twitter/X platform",
         Json.str "May contain opinions or breaking news",
         Json.str "Could include viral content or trending topics"] := rfl
  rw [e] at h
  exact (List.nodup_cons.mp h).1 (by simp)

/-- C1 (amended): among the aggregate lists, only `aggregated_themes` is
deduplicated (via a set; no order is promised); `all_key_points` and
`all_quotes`, and the five research aggregates, are order-preserving
concatenations of the per-record lists with no deduplication. -/
theorem c1_aggregates_amended :
    (∀ (urls : List String) (env : String → FetchOutcome),
      (analyze_all_links urls env).aggregated_themes.Nodup
      ∧ (analyze_all_links urls env).all_key_points
          = (((analyze_all_links urls env).content_summaries.filter
              (fun r => usefulStatuses.contains (statusStr r))).map
              (listContrib "key_points")).flatten
      ∧ (analyze_all_links urls env).all_quotes
          = (((analyze_all_links urls env).content_summaries.filter
              (fun r => usefulStatuses.contains (statusStr r))).map
              (listContrib "relevant_quotes")).flatten)
    ∧ (∀ results : List PyDict,
      (aggregateInsights results).all_trends
        = ((results.filter fun r => (pyGet r "error").isNone).map
            (researchContrib "current_trends")).flatten
      ∧ (aggregateInsights results).all_statistics
        = ((results.filter fun r => (pyGet r "error").isNone).map
            (researchContrib "key_statistics")).flatten
      ∧ (aggregateInsights results).all_implications
        = ((results.filter fun r => (pyGet r "error").isNone).map
            (researchContrib "industry_implications")).flatten
      ∧ (aggregateInsights results).all_angles
        = ((results.filter fun r => (pyGet r "error").isNone).map
            (researchContrib "linkedin_angles")).flatten
      ∧ (aggregateInsights results).all_actionable_insights
        = ((results.filter fun r => (pyGet r "error").isNone).map
            (researchContrib "actionable_insights")).flatten) := by
  constructor
  · intro urls env
    by_cases he : urls.isEmpty
    · unfold analyze_all_links
      rw [if_pos he]
      exact ⟨List.nodup_nil, rfl, rfl⟩
    · unfold analyze_all_links
      rw [if_neg he]
      refine ⟨uniqueKeepFirstJson_nodup _, ?_, ?_⟩
      · dsimp only
        rw [linkAggLoop_eq]
      · dsimp only
        rw [linkAggLoop_eq]
  · intro results
    rw [aggregateInsights_eq]
    exact ⟨rfl, rfl, rfl, rfl, rfl⟩
